import Mathlib

/-
Verification of the dataset assembly and sanitization pipeline of
`src/data/dataset.py` (classes `Dataset` and `MLDataset`).

Shallow embedding conventions:
  * a numpy 2D array of rows is a `List (List Value)`;
  * a cell is a `Value`: a finite float (`Value.num`), a non-finite float
    (`Value.nan`, standing for nan or an infinity), the Python `None`
    (`Value.pynone`), or a non-numeric string such as a ticker or a date
    (`Value.str`);
  * the 1D target array of `MLDataset` holds `TargetVal` cells (the user
    target function is documented to return a 1D numeric array, so a target
    cell is a finite float, a non-finite float, or `None`);
  * a Python attribute that starts out as `None` is an `Option`;
  * code that can raise is `Except PyErr`.
-/

/-- Cell of the accumulated data table. `num` is a finite float (modelled over
the integers, which is all the concrete examples need), `nan` a non-finite
float, `pynone` the Python `None`, `str` a non-numeric identifier string
(ticker or date); such strings do not convert under `float(...)`. -/
inductive Value where
  | num (q : Int)
  | nan
  | pynone
  | str (s : String)
deriving DecidableEq

/-- Cell of the 1D target array of `MLDataset`. -/
inductive TargetVal where
  | num (q : Int)
  | nonfinite
  | pynone
deriving DecidableEq

/-- The Python exceptions the embedded code can raise. -/
inductive PyErr where
  | nameError
  | typeError
  | valueError
  | indexError
deriving DecidableEq

/-- A 2D table of rows, as accumulated by `Dataset`. -/
abbrev Table := List (List Value)

/-- The per-cell deletion test of `Dataset._sanitize` and `MLDataset._sanitize`:
`not isinstance(val, float) or (val is None) or not np.isfinite(val)`.
Only a finite float passes (`isinstance` is checked first, so `np.isfinite`
is only ever applied to floats). -/
def badVal : Value → Bool
  | .num _ => false
  | _ => true

/-- The per-target deletion test of `MLDataset._sanitize`:
`(self.target[i] is None) or (not np.isfinite(self.target[i]))`. The `None`
test comes first, so `np.isfinite` is only applied to floats. -/
def targetBad : TargetVal → Bool
  | .num _ => false
  | _ => true

/-- Worker for `npDelete`: walk the list with a running index `k`, dropping
the elements whose index lies in `idxs`. -/
def npDeleteGo {α : Type} (idxs : List Nat) : Nat → List α → List α
  | _, [] => []
  | k, x :: xs =>
      if k ∈ idxs then npDeleteGo idxs (k + 1) xs
      else x :: npDeleteGo idxs (k + 1) xs

/-- Models `np.delete(arr, idxs, 0)`: the array without the rows whose index
lies in `idxs`, remaining rows in their original order (all indices produced
by the sanitizers are in range, so the in-range case is all that is used). -/
def npDelete {α : Type} (xs : List α) (idxs : List Nat) : List α :=
  npDeleteGo idxs 0 xs

/-- The `delrows` list built by `Dataset._sanitize`: the loop runs
`i in range(len(self.data))` and marks `i` when some value of
`self.data[i][2:]` (feature columns only) fails the cell test. -/
def delrowsData (data : Table) : List Nat :=
  (List.range data.length).filter (fun i => ((data.getD i []).drop 2).any badVal)

/-- Table-level effect of `Dataset._sanitize`:
`self.data = np.delete(self.data, delrows, 0)`. -/
def sanitizeTable (data : Table) : Table :=
  npDelete data (delrowsData data)

/-- State of a `Dataset` instance: `self.data` and `self.col_names`, both
initialized to `None` before accumulation. -/
structure DatasetState where
  data : Option Table
  colNames : Option (List String)
deriving DecidableEq

/-- State of an `MLDataset` instance: the inherited `Dataset` attributes plus
`self.target`. -/
structure MLState where
  data : Option Table
  colNames : Option (List String)
  target : Option (List TargetVal)
deriving DecidableEq

/-- `Dataset._sanitize` on the instance state. When `self.data` is `None`,
`len(self.data)` raises `TypeError`; otherwise the marked rows are deleted in
one `np.delete` call and `self.col_names` is untouched. -/
def sanitizeDataset (d : DatasetState) : Except PyErr DatasetState :=
  match d.data with
  | none => .error .typeError
  | some t => .ok ⟨some (sanitizeTable t), d.colNames⟩

/-- The `delrows` list built by `MLDataset._sanitize`: the loop runs
`i in range(len(self.data))`, marks `i` when some value of the whole row
`self.data[i]` (ALL columns, identifier columns included — unlike the base
class there is no `[2:]` slice) fails the cell test, and also marks `i` when
`self.target[i]` fails the target test. -/
def delrowsML (data : Table) (target : List TargetVal) : List Nat :=
  (List.range data.length).filter
    (fun i => (data.getD i []).any badVal || targetBad (target.getD i (.num 0)))

/-- `MLDataset._sanitize` on the instance state. `len(self.data)` raises
`TypeError` on a `None` table; `self.target[i]` raises on a `None` target
(and `np.delete` on `None` raises as well, so that case is an error either
way); `self.target[i]` raises `IndexError` when the target is shorter than
the table. Otherwise the same `delrows` list is deleted from both the table
and the target. -/
def sanitizeML (s : MLState) : Except PyErr MLState :=
  match s.data, s.target with
  | some d, some t =>
      if t.length < d.length then .error .indexError
      else .ok ⟨some (npDelete d (delrowsML d t)), s.colNames,
                some (npDelete t (delrowsML d t))⟩
  | _, _ => .error .typeError

/-- Per-batch callback type. The second argument is the dataset state at the
moment of the call (a Python callback can reach it through a closure over the
instance, as `MLDataset`'s target callback does); the third is the batch the
callback is handed (`data_callback(data)` passes the batch only). -/
def Cb (σ : Type) : Type := σ → DatasetState → Table → σ

/-- One iteration of the `for ticker in symbols` loop of
`Dataset._initialize_dataset`: retrieve `(data, col_names)` for the ticker,
run the callback on the freshly retrieved batch (before anything is
appended), then either install the batch as the first table together with
its column names, or stack the batch under the already accumulated rows
(`np.vstack`), leaving `self.col_names` as set by the first batch. -/
def initStep {σ : Type} (fetch : String → Table × List String)
    (cb : Option (Cb σ)) (acc : DatasetState × σ) (ticker : String) :
    DatasetState × σ :=
  let batch := (fetch ticker).1
  let cols := (fetch ticker).2
  let s' := match cb with
    | none => acc.2
    | some f => f acc.2 acc.1 batch
  match acc.1.data with
  | none => (⟨some batch, some cols⟩, s')
  | some d => (⟨some (d ++ batch), acc.1.colNames⟩, s')

/-- `Dataset._initialize_dataset`: when `symbols` is present, fold the
per-symbol step over the symbols in list order. The `sector`, `index` and
`size` branches of the source are `pass` placeholders, so those parameters
are accepted and ignored. `fetch` stands for the external `get_raw_data`
row-source adapter. -/
def initDataset {σ α β γ : Type} (fetch : String → Table × List String)
    (cb : Option (Cb σ)) (sector : Option α) (index : Option β)
    (size : Option γ) (symbols : Option (List String))
    (st : DatasetState × σ) : DatasetState × σ :=
  match symbols with
  | none => st
  | some syms => syms.foldl (initStep fetch cb) st

/-- The names bound in the scope of `Dataset.__init__`: its parameters.
Python resolves a name used inside a method against the local scope, then
the module globals, then the builtins — never the class body. -/
def datasetInitScope : List String :=
  ["self", "symbols", "sector", "index", "size", "data_callback"]

/-- The module-level bindings of `dataset.py`: its imports and its two
classes (plus the implicit dunder globals, none of which matter here). -/
def moduleGlobals : List String :=
  ["np", "IntradayQuotes", "get_raw_data", "Dataset", "MLDataset"]

/-- Name resolution for an identifier appearing in the body of
`Dataset.__init__`. -/
def resolvesName (n : String) : Bool :=
  datasetInitScope.contains n || moduleGlobals.contains n

/-- `Dataset.__init__`: sets `self.data = None` and `self.col_names = None`,
then evaluates `self._initialize_dataset(symbols, sector, index, size,
stock_callback)`. The last argument is the bare name `stock_callback`, which
is bound nowhere in scope, so the argument evaluation raises `NameError`
before `_initialize_dataset` is entered (hence before any batch is
retrieved). Were the name resolvable, construction would proceed into
`initDataset` with the resolved callback; that branch is unreachable. -/
def datasetInit {σ : Type} (fetch : String → Table × List String)
    (symbols : Option (List String)) (sector : Option Unit)
    (index : Option Unit) (size : Option Unit)
    (data_callback : Option (Cb σ)) (s0 : σ) :
    Except PyErr (DatasetState × σ) :=
  if resolvesName "stock_callback" then
    .ok (initDataset fetch data_callback sector index size symbols
          (⟨none, none⟩, s0))
  else
    .error .nameError

/-- `MLDataset._generate_callback`: wraps the user target function into a
per-batch callback that sets `self.target` to the function's output on the
first batch and appends the output (`np.append`) on later batches. The
callback state is the `self.target` attribute. -/
def cbTarget (target_function : Table → List TargetVal) :
    Cb (Option (List TargetVal)) :=
  fun s _ batch =>
    match s with
    | none => some (target_function batch)
    | some t => some (t ++ target_function batch)

/-- `MLDataset.__init__`: sets `self.target = None`, wraps the target
function with `_generate_callback`, and delegates to `Dataset.__init__`
(which raises `NameError`, see `datasetInit`). -/
def mlDatasetInit (fetch : String → Table × List String)
    (symbols : Option (List String)) (sector : Option Unit)
    (index : Option Unit) (size : Option Unit)
    (target_function : Table → List TargetVal) :
    Except PyErr (DatasetState × Option (List TargetVal)) :=
  datasetInit fetch symbols sector index size (some (cbTarget target_function))
    none

/-- The accumulation path of `MLDataset` construction:
`_initialize_dataset` driven with the `_generate_callback`-wrapped target
function, from the freshly initialized state (`self.data`, `self.col_names`
and `self.target` all `None`). This is the body `Dataset.__init__` was meant
to reach with `self.generate_target_data` as the callback. -/
def mlInitData (fetch : String → Table × List String)
    (target_function : Table → List TargetVal)
    (symbols : Option (List String)) :
    DatasetState × Option (List TargetVal) :=
  initDataset fetch (some (cbTarget target_function))
    (none : Option Unit) (none : Option Unit) (none : Option Unit)
    symbols (⟨none, none⟩, none)

/-- Number of accumulated rows: `len(self.data)` reading an absent table as
empty. -/
def dataRows (ds : DatasetState) : Nat :=
  (ds.data.getD []).length

/-- Number of accumulated targets: `len(self.target)` reading an absent
target as empty. -/
def targetRows (s : Option (List TargetVal)) : Nat :=
  (s.getD []).length

/-- Elementwise `float(x)` as applied by `.astype(float)`: finite and
non-finite floats convert to themselves, `float(None)` raises `TypeError`,
and `float` of a non-numeric identifier string raises `ValueError`. -/
def floatOfValue : Value → Except PyErr Value
  | .num q => .ok (.num q)
  | .nan => .ok .nan
  | .pynone => .error .typeError
  | .str _ => .error .valueError

/-- `.astype(float)` over a table: elementwise conversion, first failure
propagates. -/
def astypeFloat (t : Table) : Except PyErr Table :=
  t.mapM (fun r => r.mapM floatOfValue)

/-- `MLDataset.training_data`: `np.array(self.data[:][2:]).astype(float)`.
On an ndarray `[:]` is a row-for-row copy and `[2:]` again slices ROWS, so
this drops the first two rows and keeps every column, then coerces. -/
def training_data (data : Table) : Except PyErr Table :=
  astypeFloat (data.drop 2)

/-- Follows the spec's words for `trainingData`, for comparison with
`training_data`: the feature columns (index 2 onward) of all rows, coerced
to float. -/
def trainingDataSpecced (data : Table) : Except PyErr Table :=
  astypeFloat (data.map (fun r => r.drop 2))

/-- The `Value` view of a target cell, as it appears when a target is placed
among row values. -/
def valueOfTarget : TargetVal → Value
  | .num q => .num q
  | .nonfinite => .nan
  | .pynone => .pynone

/-- A numpy array value at the granularity `MLDataset.__iter__` needs: a 1-D
vector or a 2-D table. -/
inductive NpArr where
  | one (v : List Value)
  | two (t : Table)
deriving DecidableEq

/-- `.T` on a 1-D ndarray: transposing a 1-D array is a no-op. (`self.target`
is 1-D: the target function is documented to return a 1-D array, and
`np.append` without an axis keeps the accumulated target 1-D.) -/
def npT1 (v : List Value) : List Value := v

/-- `np.append(a, b, axis=1)`, which is `np.concatenate((a, b), axis=1)`:
both arguments must have the same number of dimensions, and along axis 1
also the same number of rows, else the call raises `ValueError` (two 1-D
arguments also fail: axis 1 is out of bounds for them). Only the matching
2-D/2-D case concatenates, row by row. -/
def npAppendAxis1 : NpArr → NpArr → Except PyErr NpArr
  | .two t, .two u =>
      if t.length = u.length then
        .ok (.two (List.zipWith (fun r s => r ++ s) t u))
      else .error .valueError
  | _, _ => .error .valueError

/-- `MLDataset.__iter__` evaluates
`iter(np.append(self.data, self.target.T, axis=1))`: the table is 2-D while
the transposed target is still 1-D, so the `np.append` call raises
`ValueError` before any iterator is produced. -/
def mlIterRows (data : Table) (target : List TargetVal) : Except PyErr NpArr :=
  npAppendAxis1 (.two data) (.one (npT1 (target.map valueOfTarget)))

/-- Follows the spec's words for `MLDataset` iteration, for comparison with
`mlIterRows`: one element per row in table order, each element being the
feature row (columns 2 onward) with the target value appended as a trailing
field. -/
def mlIterSpecced (data : Table) (target : List TargetVal) : Table :=
  List.zipWith (fun r t => r.drop 2 ++ [valueOfTarget t]) data target

/-- Follows the spec's words for the `MLDataset` sanitize keep-condition,
for comparison with `delrowsML`: a row survives when every FEATURE value
(columns from index 2 on) is a finite float and its target is finite. -/
def specKeepML (p : List Value × TargetVal) : Bool :=
  !((p.1.drop 2).any badVal || targetBad p.2)

/-- Logging callback used to observe the callback protocol of
`_initialize_dataset`: records, per invocation, the number of rows already
accumulated at the moment of the call and the batch the callback was handed. -/
def cbSpy : Cb (List (Nat × Table)) :=
  fun log ds batch => log ++ [(dataRows ds, batch)]

/-- The log `cbSpy` is expected to produce for a symbol list, starting from
`n` already-accumulated rows: one entry per symbol, carrying the row count
before that symbol's batch is appended and the symbol's own batch. -/
def expectedLog (fetch : String → Table × List String) :
    List String → Nat → List (Nat × Table)
  | [], _ => []
  | s :: rest, n => (n, (fetch s).1) :: expectedLog fetch rest (n + (fetch s).1.length)

/-- Deleting, from a list walked with running index `k`, exactly the indices
at which a value-test fails, is filtering by that test. -/
theorem npDeleteGo_filter {α : Type} (d0 : α) (bad : α → Bool) :
    ∀ (xs : List α) (k : Nat) (idxs : List Nat),
      (∀ j, j < xs.length → ((k + j) ∈ idxs ↔ bad (xs.getD j d0) = true)) →
      npDeleteGo idxs k xs = xs.filter (fun x => !bad x) := by
  intro xs
  induction xs with
  | nil => intro k idxs _; rfl
  | cons x xs ih =>
    intro k idxs h
    have h0 : k ∈ idxs ↔ bad x = true := by
      have h' := h 0 (by simp)
      simpa using h'
    have htail : ∀ j, j < xs.length →
        ((k + 1 + j) ∈ idxs ↔ bad (xs.getD j d0) = true) := by
      intro j hj
      have h' := h (j + 1) (by simpa using Nat.succ_lt_succ hj)
      have he : k + (j + 1) = k + 1 + j := by omega
      rw [he] at h'
      simpa using h'
    by_cases hb : bad x = true
    · have hk : k ∈ idxs := h0.mpr hb
      simp [npDeleteGo, hk, List.filter_cons, hb, ih (k + 1) idxs htail]
    · have hk : k ∉ idxs := fun hc => hb (h0.mp hc)
      simp [npDeleteGo, hk, List.filter_cons, hb, ih (k + 1) idxs htail]

/-- Deleting the same index set from two aligned lists, where the indices are
those at which a pairwise test fails, is filtering the zipped list by that
test and projecting. -/
theorem npDeleteGo_pair {α β : Type} (da : α) (db : β) (f : α → β → Bool) :
    ∀ (ds : List α) (ts : List β) (k : Nat) (idxs : List Nat),
      ds.length = ts.length →
      (∀ j, j < ds.length →
        ((k + j) ∈ idxs ↔ f (ds.getD j da) (ts.getD j db) = true)) →
      npDeleteGo idxs k ds
          = ((ds.zip ts).filter (fun p => !f p.1 p.2)).map Prod.fst ∧
        npDeleteGo idxs k ts
          = ((ds.zip ts).filter (fun p => !f p.1 p.2)).map Prod.snd := by
  intro ds
  induction ds with
  | nil =>
    intro ts k idxs hlen _
    have hts : ts = [] := List.eq_nil_of_length_eq_zero hlen.symm
    subst hts
    exact ⟨rfl, rfl⟩
  | cons d ds ih =>
    intro ts k idxs hlen h
    cases ts with
    | nil => simp at hlen
    | cons t ts' =>
      have h0 : k ∈ idxs ↔ f d t = true := by
        have h' := h 0 (by simp)
        simpa using h'
      have hlen' : ds.length = ts'.length := by simpa using hlen
      have htail : ∀ j, j < ds.length →
          ((k + 1 + j) ∈ idxs ↔ f (ds.getD j da) (ts'.getD j db) = true) := by
        intro j hj
        have h' := h (j + 1) (by simpa using Nat.succ_lt_succ hj)
        have he : k + (j + 1) = k + 1 + j := by omega
        rw [he] at h'
        simpa using h'
      have ihh := ih ts' (k + 1) idxs hlen' htail
      by_cases hf : f d t = true
      · have hk : k ∈ idxs := h0.mpr hf
        constructor
        · simp [npDeleteGo, hk, List.filter_cons, hf, ihh.1]
        · simp [npDeleteGo, hk, List.filter_cons, hf, ihh.2]
      · have hk : k ∉ idxs := fun hc => hf (h0.mp hc)
        constructor
        · simp [npDeleteGo, hk, List.filter_cons, hf, ihh.1]
        · simp [npDeleteGo, hk, List.filter_cons, hf, ihh.2]

/-- `Dataset._sanitize` keeps exactly the rows whose feature columns (index 2
onward) are all finite floats, in their original order. -/
theorem sanitizeTable_eq_filter (t : Table) :
    sanitizeTable t = t.filter (fun r => !((r.drop 2).any badVal)) := by
  have h : ∀ j, j < t.length →
      ((0 + j) ∈ delrowsData t ↔ ((t.getD j []).drop 2).any badVal = true) := by
    intro j hj
    simp [delrowsData, List.mem_filter, List.mem_range, hj]
  exact npDeleteGo_filter [] (fun r => (r.drop 2).any badVal) t 0 (delrowsData t) h

/-- `MLDataset._sanitize` on an aligned state keeps exactly the row/target
pairs whose row values are ALL finite floats (every column, identifiers
included) and whose target is finite, deleting the same index set from both
containers. -/
theorem sanitizeML_eq (d : Table) (t : List TargetVal) (cn : Option (List String))
    (hlen : d.length = t.length) :
    sanitizeML ⟨some d, cn, some t⟩
      = .ok ⟨some (((d.zip t).filter
              (fun p => !(p.1.any badVal || targetBad p.2))).map Prod.fst),
            cn,
            some (((d.zip t).filter
              (fun p => !(p.1.any badVal || targetBad p.2))).map Prod.snd)⟩ := by
  have h : ∀ j, j < d.length →
      ((0 + j) ∈ delrowsML d t ↔
        ((d.getD j []).any badVal || targetBad (t.getD j (.num 0))) = true) := by
    intro j hj
    simp [delrowsML, List.mem_filter, List.mem_range, hj]
  have hp := npDeleteGo_pair [] (TargetVal.num 0)
      (fun r tv => r.any badVal || targetBad tv) d t 0 (delrowsML d t) hlen h
  have hnlt : ¬t.length < d.length := by omega
  simp [sanitizeML, hnlt, npDelete, hp.1, hp.2]

/-- Zipping the two projections of a list of pairs gives the list back. -/
theorem zip_map_fst_snd_eq {α β : Type} :
    ∀ l : List (α × β), (l.map Prod.fst).zip (l.map Prod.snd) = l := by
  intro l
  induction l with
  | nil => rfl
  | cons p l ih => simp [ih]

/-- The log a spying callback accumulates over the symbol fold: one entry per
symbol, in order, recording the pre-append row count and that symbol's batch. -/
theorem foldl_cbSpy (fetch : String → Table × List String) :
    ∀ (syms : List String) (ds : DatasetState) (log : List (Nat × Table)),
      (syms.foldl (initStep fetch (some cbSpy)) (ds, log)).2
        = log ++ expectedLog fetch syms (dataRows ds) := by
  intro syms
  induction syms with
  | nil => intro ds log; simp [expectedLog]
  | cons s rest ih =>
    intro ds log
    obtain ⟨od, ocn⟩ := ds
    cases od with
    | none =>
      simp [List.foldl_cons, initStep, cbSpy, ih, expectedLog, dataRows]
    | some dd =>
      simp [List.foldl_cons, initStep, cbSpy, ih, expectedLog, dataRows]

/-- `expectedLog` has one entry per symbol. -/
theorem expectedLog_length (fetch : String → Table × List String) :
    ∀ (syms : List String) (n : Nat),
      (expectedLog fetch syms n).length = syms.length := by
  intro syms
  induction syms with
  | nil => intro n; rfl
  | cons s rest ih => intro n; simp [expectedLog, ih]

/-- The batches recorded by `expectedLog` are exactly the per-symbol batches. -/
theorem expectedLog_map_snd (fetch : String → Table × List String) :
    ∀ (syms : List String) (n : Nat),
      (expectedLog fetch syms n).map Prod.snd
        = syms.map (fun s => (fetch s).1) := by
  intro syms
  induction syms with
  | nil => intro n; rfl
  | cons s rest ih => intro n; simp [expectedLog, ih]

/-- The accumulation fold of `MLDataset` keeps the table and the target in
lockstep: starting from a state where both are absent or both are present
with equal lengths, it ends in such a state, provided the target function
yields one target per batch row. -/
theorem mlInit_foldl_align (fetch : String → Table × List String)
    (tf : Table → List TargetVal) (htf : ∀ b, (tf b).length = b.length) :
    ∀ (syms : List String) (ds : DatasetState) (s : Option (List TargetVal)),
      ((ds.data = none ∧ s = none) ∨
        (∃ dd tt, ds.data = some dd ∧ s = some tt ∧ dd.length = tt.length)) →
      (((syms.foldl (initStep fetch (some (cbTarget tf))) (ds, s)).1.data = none ∧
          (syms.foldl (initStep fetch (some (cbTarget tf))) (ds, s)).2 = none) ∨
        (∃ dd tt,
          (syms.foldl (initStep fetch (some (cbTarget tf))) (ds, s)).1.data
              = some dd ∧
          (syms.foldl (initStep fetch (some (cbTarget tf))) (ds, s)).2 = some tt ∧
          dd.length = tt.length)) := by
  intro syms
  induction syms with
  | nil => intro ds s hinv; simpa using hinv
  | cons sym rest ih =>
    intro ds s hinv
    obtain ⟨od, ocn⟩ := ds
    rw [List.foldl_cons]
    rcases hinv with ⟨hd, hs⟩ | ⟨dd, tt, hd, hs, hl⟩
    · have hod : od = none := hd
      subst hod
      subst hs
      apply ih
      right
      refine ⟨(fetch sym).1, tf (fetch sym).1, ?_, ?_, (htf _).symm⟩
      · simp [initStep, cbTarget]
      · simp [initStep, cbTarget]
    · have hod : od = some dd := hd
      subst hod
      subst hs
      apply ih
      right
      refine ⟨dd ++ (fetch sym).1, tt ++ tf (fetch sym).1, ?_, ?_, ?_⟩
      · simp [initStep, cbTarget]
      · simp [initStep, cbTarget]
      · simp [hl, htf]

/-- C1: for every argument combination, `Dataset.__init__` (and
`MLDataset.__init__`, which delegates to it) raises `NameError`: the call to
`_initialize_dataset` names the unbound `stock_callback`, so the error is
raised while evaluating the arguments, before any batch is retrieved, and no
instance is ever constructed. -/
theorem dataset_init_always_nameError :
    ∀ {σ : Type} (fetch : String → Table × List String)
      (symbols : Option (List String)) (sector index size : Option Unit)
      (data_callback : Option (Cb σ)) (s0 : σ)
      (tf : Table → List TargetVal),
      datasetInit fetch symbols sector index size data_callback s0
        = .error .nameError ∧
      mlDatasetInit fetch symbols sector index size tf
        = .error .nameError := by
  intro σ fetch symbols sector index size data_callback s0 tf
  have h : resolvesName "stock_callback" = false := by decide
  constructor
  · simp [datasetInit, h]
  · simp [mlDatasetInit, datasetInit, h]

/-- C5: `Dataset.sanitize` removes exactly the rows with a non-float, null or
non-finite value in some feature column (index 2 onward; the two identifier
columns are not checked), keeps the remaining rows in their relative order
(the result is a sublist of the input), and performs the deletion as one
batch `np.delete` over the collected index list (see `sanitizeTable`). -/
theorem dataset_sanitize_exact_filter :
    ∀ (t : Table) (cn : Option (List String)),
      sanitizeDataset ⟨some t, cn⟩
        = .ok ⟨some (t.filter (fun r => !((r.drop 2).any badVal))), cn⟩ ∧
      (t.filter (fun r => !((r.drop 2).any badVal))).Sublist t := by
  intro t cn
  constructor
  · simp [sanitizeDataset, sanitizeTable_eq_filter]
  · exact List.filter_sublist t

/-- C3 (amended): `MLDataset.sanitize` removes exactly those row indices at
which some value in ANY column — the two identifier columns included, since
the override iterates over the whole row without the base class's `[2:]`
slice — is non-float/null/non-finite, or the target value is null or
non-finite. Rows whose only non-float values lie in the identifier columns
are removed, not kept. -/
theorem ml_sanitize_checks_all_columns :
    ∀ (d : Table) (t : List TargetVal) (cn : Option (List String)),
      d.length = t.length →
      sanitizeML ⟨some d, cn, some t⟩
        = .ok ⟨some (((d.zip t).filter
                (fun p => !(p.1.any badVal || targetBad p.2))).map Prod.fst),
              cn,
              some (((d.zip t).filter
                (fun p => !(p.1.any badVal || targetBad p.2))).map Prod.snd)⟩ :=
  fun d t cn h => sanitizeML_eq d t cn h

/-- C3 witness: the amended theorem applied to a one-row aligned state. -/
theorem ml_sanitize_checks_all_columns_witness :
    sanitizeML ⟨some [[Value.num 1]], some ["x"], some [TargetVal.num 2]⟩
      = .ok ⟨some (((([[Value.num 1]] : Table).zip [TargetVal.num 2]).filter
              (fun p => !(p.1.any badVal || targetBad p.2))).map Prod.fst),
            some ["x"],
            some (((([[Value.num 1]] : Table).zip [TargetVal.num 2]).filter
              (fun p => !(p.1.any badVal || targetBad p.2))).map Prod.snd)⟩ :=
  ml_sanitize_checks_all_columns [[Value.num 1]] [TargetVal.num 2] (some ["x"]) rfl

/-- C3 counterexample: a row whose only non-float values are its two
identifier columns, with finite features and a finite target. The claim says
the row is kept (its spec-side keep-condition `specKeepML` holds), but
`MLDataset.sanitize` deletes it together with its target. -/
theorem ml_sanitize_identifier_cols_cex :
    sanitizeML ⟨some [[Value.str "A", Value.str "2020-01-01",
          Value.num 1, Value.num 2]],
        some ["sym", "date", "o", "c"], some [TargetVal.num 10]⟩
      = .ok ⟨some [], some ["sym", "date", "o", "c"], some []⟩ ∧
    specKeepML ([Value.str "A", Value.str "2020-01-01",
          Value.num 1, Value.num 2], TargetVal.num 10) = true :=
  ⟨rfl, rfl⟩

/-- C4: `training_data` evaluates `np.array(self.data[:][2:]).astype(float)`;
on a 2D array `[:]` copies and `[2:]` slices ROWS again, so the code drops
the first two rows and keeps all columns (then `astype(float)` chokes on the
identifier strings), instead of taking the feature columns of all rows as
the spec states (`trainingDataSpecced`). Evaluated at a concrete 3-row
table: the code raises `ValueError`, the spec's reading returns the 3×2
feature matrix. -/
theorem training_data_row_slice_bug :
    training_data
        [[Value.str "A", Value.str "2020-01-01", Value.num 1, Value.num 2],
         [Value.str "A", Value.str "2020-01-02", Value.num 3, Value.num 4],
         [Value.str "A", Value.str "2020-01-03", Value.num 5, Value.num 6]]
      = .error .valueError ∧
    trainingDataSpecced
        [[Value.str "A", Value.str "2020-01-01", Value.num 1, Value.num 2],
         [Value.str "A", Value.str "2020-01-02", Value.num 3, Value.num 4],
         [Value.str "A", Value.str "2020-01-03", Value.num 5, Value.num 6]]
      = .ok [[Value.num 1, Value.num 2], [Value.num 3, Value.num 4],
             [Value.num 5, Value.num 6]] :=
  ⟨rfl, rfl⟩

/-- C6 (amended): iterating an `MLDataset` never yields an element. For every
table and every (1-D) target, `np.append(self.data, self.target.T, axis=1)`
concatenates a 2-D array with a still-1-D array (`.T` on a 1-D ndarray is a
no-op) along axis 1, a dimensionality mismatch, so `__iter__` raises
`ValueError` instead of producing the feature-row-plus-target sequence the
claim states. -/
theorem ml_iter_always_raises :
    ∀ (data : Table) (target : List TargetVal),
      mlIterRows data target = .error .valueError := by
  intro data target
  rfl

/-- C6 counterexample: at a concrete aligned one-row state the claim
predicts the yielded sequence `[[1.0, 2.0, 10.0]]` (the spec-side reading
`mlIterSpecced`), but the source's `np.append` call raises `ValueError` and
yields nothing. -/
theorem ml_iter_raises_valueError_cex :
    mlIterRows [[Value.str "A", Value.str "2020-01-01", Value.num 1, Value.num 2]]
        [TargetVal.num 10]
      = .error .valueError ∧
    mlIterSpecced [[Value.str "A", Value.str "2020-01-01", Value.num 1, Value.num 2]]
        [TargetVal.num 10]
      = [[Value.num 1, Value.num 2, Value.num 10]] :=
  ⟨rfl, rfl⟩

/-- C7: accumulating over symbols `[a, b]` (with or without a callback)
yields a table whose first `rowsOf a` rows are exactly a's batch in a's
retrieval order and whose remaining rows are exactly b's batch, and
`col_names` is set from the first batch. -/
theorem accumulation_order_two_symbols :
    ∀ {σ : Type} (fetch : String → Table × List String) (cb : Option (Cb σ))
      (s0 : σ) (a b : String),
      ((initDataset fetch cb (none : Option Unit) (none : Option Unit)
            (none : Option Unit) (some [a, b])
            (⟨none, none⟩, s0)).1.data.getD []).take (fetch a).1.length
        = (fetch a).1 ∧
      ((initDataset fetch cb (none : Option Unit) (none : Option Unit)
            (none : Option Unit) (some [a, b])
            (⟨none, none⟩, s0)).1.data.getD []).drop (fetch a).1.length
        = (fetch b).1 ∧
      (initDataset fetch cb (none : Option Unit) (none : Option Unit)
            (none : Option Unit) (some [a, b])
            (⟨none, none⟩, s0)).1.colNames = some (fetch a).2 := by
  intro σ fetch cb s0 a b
  have hres : (initDataset fetch cb (none : Option Unit) (none : Option Unit)
        (none : Option Unit) (some [a, b]) (⟨none, none⟩, s0)).1
      = ⟨some ((fetch a).1 ++ (fetch b).1), some (fetch a).2⟩ := by
    cases cb with
    | none => rfl
    | some f => rfl
  rw [hres]
  refine ⟨?_, ?_, rfl⟩
  · simpa using List.take_left (fetch a).1 (fetch b).1
  · simpa using List.drop_left (fetch a).1 (fetch b).1

/-- C8: accumulating over any symbol list invokes the supplied callback
exactly once per symbol (the observation log has one entry per symbol), each
invocation receives only that symbol's freshly retrieved batch (never the
cumulative table), and each invocation happens before that batch is appended
(the row count recorded at call time counts only the previous symbols'
rows, as listed by `expectedLog`). -/
theorem callback_once_per_symbol :
    ∀ (fetch : String → Table × List String) (syms : List String),
      (initDataset fetch (some cbSpy) (none : Option Unit) (none : Option Unit)
          (none : Option Unit) (some syms) (⟨none, none⟩, [])).2
        = expectedLog fetch syms 0 ∧
      ((initDataset fetch (some cbSpy) (none : Option Unit) (none : Option Unit)
          (none : Option Unit) (some syms) (⟨none, none⟩, [])).2).length
        = syms.length ∧
      ((initDataset fetch (some cbSpy) (none : Option Unit) (none : Option Unit)
          (none : Option Unit) (some syms) (⟨none, none⟩, [])).2).map Prod.snd
        = syms.map (fun s => (fetch s).1) := by
  intro fetch syms
  have h1 : (initDataset fetch (some cbSpy) (none : Option Unit)
        (none : Option Unit) (none : Option Unit) (some syms)
        (⟨none, none⟩, [])).2 = expectedLog fetch syms 0 := by
    have h := foldl_cbSpy fetch syms ⟨none, none⟩ []
    simpa [initDataset, dataRows] using h
  refine ⟨h1, ?_, ?_⟩
  · rw [h1, expectedLog_length]
  · rw [h1, expectedLog_map_snd]

/-- C9: sanitize is idempotent. A second `Dataset.sanitize` (resp.
`MLDataset.sanitize` from an aligned Ready state) returns its input
unchanged: the second call removes no further rows. -/
theorem sanitize_idempotent :
    (∀ (d d' : DatasetState),
      sanitizeDataset d = .ok d' → sanitizeDataset d' = .ok d') ∧
    (∀ (dt : Table) (t : List TargetVal) (cn : Option (List String))
        (s' : MLState),
      dt.length = t.length → sanitizeML ⟨some dt, cn, some t⟩ = .ok s' →
      sanitizeML s' = .ok s') := by
  constructor
  · intro d d' h
    obtain ⟨od, cn⟩ := d
    cases od with
    | none => simp [sanitizeDataset] at h
    | some tb =>
      simp only [sanitizeDataset, Except.ok.injEq] at h
      subst h
      simp only [sanitizeDataset, Except.ok.injEq]
      have hidem : sanitizeTable (sanitizeTable tb) = sanitizeTable tb := by
        rw [sanitizeTable_eq_filter tb, sanitizeTable_eq_filter]
        exact List.filter_eq_self.mpr (fun a ha => (List.mem_filter.mp ha).2)
      rw [hidem]
  · intro dt t cn s' hlen hok
    rw [sanitizeML_eq dt t cn hlen] at hok
    have hs' := Except.ok.inj hok
    subst hs'
    have hlen2 : (((dt.zip t).filter
          (fun p => !(p.1.any badVal || targetBad p.2))).map Prod.fst).length
        = (((dt.zip t).filter
          (fun p => !(p.1.any badVal || targetBad p.2))).map Prod.snd).length := by
      simp
    rw [sanitizeML_eq _ _ cn hlen2]
    rw [zip_map_fst_snd_eq]
    have hfilt : ((dt.zip t).filter
          (fun p => !(p.1.any badVal || targetBad p.2))).filter
          (fun p => !(p.1.any badVal || targetBad p.2))
        = (dt.zip t).filter (fun p => !(p.1.any badVal || targetBad p.2)) :=
      List.filter_eq_self.mpr (fun a ha => (List.mem_filter.mp ha).2)
    rw [hfilt]

/-- C9 witness: the idempotence theorem applied to a one-row `Dataset` state
and a one-row aligned `MLDataset` state, each left unchanged by the first
call. -/
theorem sanitize_idempotent_witness :
    sanitizeDataset ⟨some [[Value.num 1]], none⟩
      = .ok ⟨some [[Value.num 1]], none⟩ ∧
    sanitizeML ⟨some [[Value.num 1]], none, some [TargetVal.num 2]⟩
      = .ok ⟨some [[Value.num 1]], none, some [TargetVal.num 2]⟩ :=
  ⟨sanitize_idempotent.1 ⟨some [[Value.num 1]], none⟩
      ⟨some [[Value.num 1]], none⟩ rfl,
   sanitize_idempotent.2 [[Value.num 1]] [TargetVal.num 2] none
      ⟨some [[Value.num 1]], none, some [TargetVal.num 2]⟩ rfl rfl⟩

/-- C10: both sanitize overrides mutate only the data table (and, for
`MLDataset`, the target); `self.col_names` is unchanged by every successful
sanitize call. -/
theorem sanitize_preserves_colNames :
    (∀ (d d' : DatasetState),
      sanitizeDataset d = .ok d' → d'.colNames = d.colNames) ∧
    (∀ (s s' : MLState), sanitizeML s = .ok s' → s'.colNames = s.colNames) := by
  constructor
  · intro d d' h
    obtain ⟨od, cn⟩ := d
    cases od with
    | none => simp [sanitizeDataset] at h
    | some tb =>
      simp only [sanitizeDataset, Except.ok.injEq] at h
      subst h
      rfl
  · intro s s' h
    obtain ⟨od, cn, ot⟩ := s
    cases od with
    | none => simp [sanitizeML] at h
    | some d =>
      cases ot with
      | none => simp [sanitizeML] at h
      | some t =>
        by_cases hlt : t.length < d.length
        · simp [sanitizeML, hlt] at h
        · simp only [sanitizeML, if_neg hlt, Except.ok.injEq] at h
          subst h
          rfl

/-- C10 witness: the frame theorem applied to concrete one-row states whose
sanitize calls succeed. -/
theorem sanitize_preserves_colNames_witness :
    (⟨some [[Value.num 1]], some ["a"]⟩ : DatasetState).colNames
      = (⟨some [[Value.num 1]], some ["a"]⟩ : DatasetState).colNames ∧
    (⟨some [[Value.num 1]], some ["b"], some [TargetVal.num 2]⟩
        : MLState).colNames
      = (⟨some [[Value.num 1]], some ["b"], some [TargetVal.num 2]⟩
        : MLState).colNames :=
  ⟨sanitize_preserves_colNames.1 ⟨some [[Value.num 1]], some ["a"]⟩
      ⟨some [[Value.num 1]], some ["a"]⟩ rfl,
   sanitize_preserves_colNames.2
      ⟨some [[Value.num 1]], some ["b"], some [TargetVal.num 2]⟩
      ⟨some [[Value.num 1]], some ["b"], some [TargetVal.num 2]⟩ rfl⟩

/-- C2: when the target function returns one target entry per batch row, the
accumulation path of `MLDataset` construction (`_initialize_dataset` driven
by the `_generate_callback`-wrapped target function) ends with
`len(rawData) == len(targetData)`, and every successful `sanitize` call
preserves the equality: the same index set is deleted from the table and the
target. -/
theorem ml_alignment_after_construction_and_sanitize :
    (∀ (fetch : String → Table × List String) (tf : Table → List TargetVal)
        (symbols : Option (List String)),
      (∀ b, (tf b).length = b.length) →
      dataRows (mlInitData fetch tf symbols).1
        = targetRows (mlInitData fetch tf symbols).2) ∧
    (∀ (d : Table) (t : List TargetVal) (cn : Option (List String))
        (s' : MLState),
      d.length = t.length → sanitizeML ⟨some d, cn, some t⟩ = .ok s' →
      (s'.data.getD []).length = (s'.target.getD []).length) := by
  constructor
  · intro fetch tf symbols htf
    cases symbols with
    | none => rfl
    | some syms =>
      have hinv := mlInit_foldl_align fetch tf htf syms ⟨none, none⟩ none
        (Or.inl ⟨rfl, rfl⟩)
      rcases hinv with ⟨hd, hs⟩ | ⟨dd, tt, hd, hs, hl⟩
      · simp [mlInitData, initDataset, dataRows, targetRows, hd, hs]
      · simp [mlInitData, initDataset, dataRows, targetRows, hd, hs, hl]
  · intro d t cn s' hlen hok
    rw [sanitizeML_eq d t cn hlen] at hok
    have hs' := Except.ok.inj hok
    subst hs'
    simp

/-- C2 witness: the alignment theorem applied to a concrete two-symbol
construction (a constant fetch returning a one-row batch and a target
function yielding one target per row) and to a concrete aligned sanitize
call. -/
theorem ml_alignment_witness :
    dataRows (mlInitData (fun _ => ([[Value.num 1, Value.num 2]], ["a", "b"]))
        (fun b => b.map (fun _ => TargetVal.num 5)) (some ["A", "B"])).1
      = targetRows (mlInitData (fun _ => ([[Value.num 1, Value.num 2]], ["a", "b"]))
        (fun b => b.map (fun _ => TargetVal.num 5)) (some ["A", "B"])).2 ∧
    (((⟨some [[Value.num 1]], none, some [TargetVal.num 2]⟩
        : MLState).data).getD []).length
      = (((⟨some [[Value.num 1]], none, some [TargetVal.num 2]⟩
        : MLState).target).getD []).length :=
  ⟨ml_alignment_after_construction_and_sanitize.1
      (fun _ => ([[Value.num 1, Value.num 2]], ["a", "b"]))
      (fun b => b.map (fun _ => TargetVal.num 5)) (some ["A", "B"])
      (fun b => by simp),
   ml_alignment_after_construction_and_sanitize.2 [[Value.num 1]]
      [TargetVal.num 2] none
      ⟨some [[Value.num 1]], none, some [TargetVal.num 2]⟩ rfl rfl⟩
